import Mathlib

/-!
Verification development for the `qtawesome.iconic_font` module.

The Python module is embedded shallowly:

* Python dictionaries that hold icon options become association lists
  (`OptMap`), observed through `List.lookup` (first binding wins, which
  matches overwrite-by-assignment semantics).
* Python floats become exact unnormalized fractions (`Frac`); the claims
  under study never depend on binary floating-point rounding.
* Qt objects are reduced to the state the module touches: a painter is a
  current pen/font/opacity record plus the save/restore stack, a rectangle
  is four coordinates, a font is a family name and a pixel size.
* Fallible Python code returns `Except` (or pairs a result with an
  optional raised error where mutations survive the raise, as they do for
  Python instance attributes).
* External effects (the font database answering `addApplicationFont`,
  file contents, the computed md5 digest, the animation hook) are inputs
  to the embedded functions.
-/

/-- Exact fraction with no normalization; stands in for Python floats.
Denominators produced by the module's own arithmetic are positive. -/
structure Frac where
  num : Int
  den : Int
deriving DecidableEq

def Frac.mul (a b : Frac) : Frac := ⟨a.num * b.num, a.den * b.den⟩

def Frac.add (a b : Frac) : Frac := ⟨a.num * b.den + b.num * a.den, a.den * b.den⟩

def Frac.ofInt (n : Int) : Frac := ⟨n, 1⟩

def Frac.fl (a : Frac) : Int := Int.fdiv a.num a.den

/-- Qt's qRound: round half away from zero. -/
def qRound (a : Frac) : Int :=
  if 0 ≤ a.num * a.den then Frac.fl ⟨a.num * 2 + a.den, a.den * 2⟩
  else - Frac.fl ⟨(- a.num) * 2 + a.den, a.den * 2⟩

/-- Values storable in an option dictionary: strings (glyph names and
resolved characters), colors, numbers, pairs (offsets), animation handles
and Python's `None`. -/
inductive Val where
  | str (s : String)
  | color (r g b : Nat)
  | num (q : Frac)
  | pair (a b : Frac)
  | anim (i : Nat)
  | pynone
deriving DecidableEq

/-- A Python dict of options: association list, first binding wins. -/
abbrev OptMap := List (String × Val)

/-- Python `d.get(k, dflt)`. -/
def pygetD (m : OptMap) (k : String) (d : Val) : Val := (List.lookup k m).getD d

/-- Python `d.get(k)` (default `None`). -/
def pyget (m : OptMap) (k : String) : Val := pygetD m k .pynone

/-- Python `d.setdefault(k, v)` (the updated dict). -/
def setdefault (m : OptMap) (k : String) (v : Val) : OptMap :=
  match List.lookup k m with
  | some _ => m
  | none => (k, v) :: m

/-- Python's `name.split('.')` (splits on every dot, keeps empty parts). -/
def splitDotAux : List Char → List Char → List String
  | [], cur => [String.mk cur.reverse]
  | c :: rest, cur =>
    if c = '.' then String.mk cur.reverse :: splitDotAux rest []
    else splitDotAux rest (c :: cur)

def pySplitDot (s : String) : List String := splitDotAux s.data []

/-- Python's `'.' in name`. -/
def containsDot (s : String) : Bool := s.data.contains '.'

/-- Module level `_default_options` dictionary. -/
def default_options : OptMap :=
  [("color", .color 50 50 50),
   ("color_disabled", .color 150 150 150),
   ("opacity", .num ⟨1, 1⟩),
   ("scale_factor", .num ⟨1, 1⟩)]

/-- The allow list inside `set_global_defaults`, in source order. -/
def valid_options : List String :=
  ["active", "selected", "disabled", "on", "off",
   "on_active", "on_selected", "on_disabled",
   "off_active", "off_selected", "off_disabled",
   "color", "color_on", "color_off",
   "color_active", "color_selected", "color_disabled",
   "color_on_selected", "color_on_active", "color_on_disabled",
   "color_off_selected", "color_off_active", "color_off_disabled",
   "animation", "offset", "scale_factor"]

/-- `set_global_defaults(**kwargs)`: iterate the keyword arguments in
order; a key on the allow list is written into the defaults dict, the
first key off the list raises `KeyError` (returned as `some key`), leaving
the writes already performed in place. -/
def set_global_defaults (dflt : OptMap) : List (String × Val) → OptMap × Option String
  | [] => (dflt, none)
  | (k, v) :: rest =>
    if k ∈ valid_options then set_global_defaults ((k, v) :: dflt) rest
    else (dflt, some k)

/-- Registry state of an `IconicFont` instance: the `fontname` and
`charmap` instance dictionaries. A charmap maps glyph names to the
already-decoded single-character strings (the JSON hex decoding performed
by the `hook` at load time is file input, modeled as given). -/
structure IconicFont where
  fontname : List (String × String)
  charmap : List (String × List (String × String))
deriving DecidableEq

/-- Errors raised from `_get_prefix_chars` (all are plain `Exception`s in
Python, distinguished here by the branch that raises them, which the
spec's taxonomy names `UnknownPrefixError`, `UnknownGlyphError` and
`InvalidGlyphNameError`). `unpackMismatch` is the `ValueError` Python
raises when `name.split('.')` does not yield exactly two parts, and
`nameUnbound` the `NameError` on an empty slot list (the loop variable
`prefix` is never assigned). `attrError` covers a non-string slot value. -/
inductive GlyphErr where
  | unknownPfx (p : String)
  | unknownGlyph (n p : String)
  | invalidIconName
  | unpackMismatch
  | nameUnbound
  | attrError
deriving DecidableEq

deriving instance DecidableEq for Except

/-- Resolution of one name slot inside the loop of `_get_prefix_chars`:
split on the dot, look the collection up by its prefix, then the glyph
inside the collection. -/
def resolveOne (st : IconicFont) (v : Val) : Except GlyphErr (String × String) :=
  match v with
  | .str nm =>
    if containsDot nm then
      match pySplitDot nm with
      | [p, n] =>
        match List.lookup p st.charmap with
        | some cmap =>
          match List.lookup n cmap with
          | some ch => .ok (p, ch)
          | none => .error (.unknownGlyph n p)
        | none => .error (.unknownPfx p)
      | _ => .error .unpackMismatch
    else .error .invalidIconName
  | _ => .error .attrError

/-- Loop of `_get_prefix_chars`: walk the slot names, accumulating the
looked-up characters and rebinding the loop variable `prefix` at each
successful split. -/
def get_pfx_chars_loop (st : IconicFont) :
    List Val → Option String → List String → Except GlyphErr (Option String × List String)
  | [], po, acc => .ok (po, acc.reverse)
  | v :: rest, _po, acc =>
    match resolveOne st v with
    | .ok (p, ch) => get_pfx_chars_loop st rest (some p) (ch :: acc)
    | .error e => .error e

/-- `IconicFont._get_prefix_chars(names)`: returns the characters for all
slots together with the prefix bound by the last loop iteration. -/
def get_pfx_chars (st : IconicFont) (names : List Val) :
    Except GlyphErr (String × List String) :=
  match get_pfx_chars_loop st names none [] with
  | .ok (some p, chars) => .ok (p, chars)
  | .ok (none, _) => .error .nameUnbound
  | .error e => .error e

/-- The `icon_kw` list of `_parse_options`, in source order. -/
def icon_kw : List String :=
  ["char", "on", "off", "active", "selected", "disabled",
   "on_active", "on_selected", "on_disabled", "off_active",
   "off_selected", "off_disabled"]

/-- The twelve name-slot values computed by the let-chain of
`_parse_options` (lines 285 to 296 of the source), listed in `icon_kw`
order. `m` is the merged option dict, `name` the glyph name argument. -/
def resolveNames (m : OptMap) (name : String) : List Val :=
  let vchar := pygetD m "char" (.str name)
  let von := pygetD m "on" vchar
  let voff := pygetD m "off" vchar
  let vactive := pygetD m "active" von
  let vselected := pygetD m "selected" vactive
  let vdisabled := pygetD m "disabled" vchar
  let von_active := pygetD m "on_active" vactive
  let von_selected := pygetD m "on_selected" vselected
  let von_disabled := pygetD m "on_disabled" vdisabled
  let voff_active := pygetD m "off_active" vactive
  let voff_selected := pygetD m "off_selected" vselected
  let voff_disabled := pygetD m "off_disabled" vdisabled
  [vchar, von, voff, vactive, vselected, vdisabled, von_active,
   von_selected, von_disabled, voff_active, voff_selected, voff_disabled]

/-- `dict(_default_options, **general)` followed by
`options.update(specific)`: later dicts win on lookup. -/
def mergedOptions (specific general : OptMap) : OptMap :=
  specific ++ (general ++ default_options)

/-- Color-handling tail of `_parse_options` (source lines 318 to 328):
the sequence of `setdefault` calls on the option dict, each reading the
dict as left by the previous one. One definition per source line; the
`color` local of line 318 is `pyget m "color"` (the key `"color"` is
never written by this stage). -/
def color_stage3 (m : OptMap) : OptMap := setdefault m "color_on" (pyget m "color")

def color_stage4 (m : OptMap) : OptMap :=
  setdefault (color_stage3 m) "color_active" (pyget (color_stage3 m) "color_on")

def color_stage5 (m : OptMap) : OptMap :=
  setdefault (color_stage4 m) "color_selected" (pyget (color_stage4 m) "color_active")

def color_stage6 (m : OptMap) : OptMap :=
  setdefault (color_stage5 m) "color_on_active" (pyget (color_stage5 m) "color_active")

def color_stage7 (m : OptMap) : OptMap :=
  setdefault (color_stage6 m) "color_on_selected" (pyget (color_stage6 m) "color_selected")

def color_stage8 (m : OptMap) : OptMap :=
  setdefault (color_stage7 m) "color_on_disabled" (pyget (color_stage7 m) "color_disabled")

def color_stage9 (m : OptMap) : OptMap :=
  setdefault (color_stage8 m) "color_off" (pyget m "color")

def color_stage10 (m : OptMap) : OptMap :=
  setdefault (color_stage9 m) "color_off_active" (pyget (color_stage9 m) "color_active")

def color_stage11 (m : OptMap) : OptMap :=
  setdefault (color_stage10 m) "color_off_selected" (pyget (color_stage10 m) "color_selected")

def color_stage (m : OptMap) : OptMap :=
  setdefault (color_stage11 m) "color_off_disabled" (pyget (color_stage11 m) "color_disabled")

/-- `IconicFont._parse_options(specific_options, general_options, name)`. -/
def parse_options (st : IconicFont) (specific general : OptMap) (name : String) :
    Except GlyphErr OptMap :=
  let options0 := mergedOptions specific general
  let names := resolveNames options0 name
  match get_pfx_chars st names with
  | .error e => .error e
  | .ok (p, chars) =>
    let options1 := (List.zip icon_kw (chars.map Val.str)) ++ options0
    let options2 := ("prefix", Val.str p) :: options1
    .ok (color_stage options2)

/-- Errors observable from `IconicFont.icon`: the explicit arity check on
the `options` keyword, or an error propagated from `_parse_options`. -/
inductive IconicErr where
  | arity (n : Nat)
  | glyph (e : GlyphErr)
deriving DecidableEq

/-- Result of `IconicFont.icon`: either a `QIcon` backed by a
`CharIconEngine` holding the parsed per-glyph option dicts, or the empty
`QIcon()` returned (after the warning) when no `QApplication` exists. -/
inductive IconResult where
  | ofEngine (spec : List OptMap)
  | emptyWarned
deriving DecidableEq

def parseAll (st : IconicFont) : List (OptMap × String) → Except GlyphErr (List OptMap)
  | [] => .ok []
  | (sp, nm) :: rest =>
    match parse_options st sp [] nm with
    | .error e => .error e
    | .ok o =>
      match parseAll st rest with
      | .error e => .error e
      | .ok os => .ok (o :: os)

/-- `IconicFont.icon(*names, options=options_list, **general)`. `hasApp`
is whether `QApplication.instance()` is non-`None`. The general keyword
options are merged inside `_parse_options`; `parseAllWith` threads them. -/
def parseAllWith (st : IconicFont) (general : OptMap) :
    List (OptMap × String) → Except GlyphErr (List OptMap)
  | [] => .ok []
  | (sp, nm) :: rest =>
    match parse_options st sp general nm with
    | .error e => .error e
    | .ok o =>
      match parseAllWith st general rest with
      | .error e => .error e
      | .ok os => .ok (o :: os)

def icon (st : IconicFont) (hasApp : Bool) (names : List String)
    (optsList : Option (List OptMap)) (general : OptMap) :
    Except IconicErr IconResult :=
  let options_list := optsList.getD (List.replicate names.length [])
  if options_list.length ≠ names.length then .error (.arity names.length)
  else if hasApp then
    match parseAllWith st general (options_list.zip names) with
    | .ok parsed => .ok (.ofEngine parsed)
    | .error e => .error (.glyph e)
  else .ok .emptyWarned

/-- `IconicFont.font(prefix, size)`: `QFont(self.fontname[prefix])` plus
`setPixelSize`. The dictionary subscript raises `KeyError` for an
unregistered prefix; there is no application-instance guard here. -/
def fontFn (st : IconicFont) (pfx : String) (size : Frac) :
    Except Unit (String × Frac) :=
  match List.lookup pfx st.fontname with
  | some fam => .ok (fam, size)
  | none => .error ()

/-- Errors raised by `IconicFont.load_font` (both are `FontError`s in the
source, distinguished by message). -/
inductive FontLoadErr where
  | emptyFamilies
  | corrupt
deriving DecidableEq

/-- Module constant `SYSTEM_FONTS`. -/
def SYSTEM_FONTS : Bool := false

/-- The `md5_hashes` integrity table inside `load_font`. -/
def md5_hashes : List (String × String) :=
  [("Font Awesome 5 Brands-Regular-400.otf", "fa63e85727b1b8ad35b9390d81617e08"),
   ("Font Awesome 5 Free-Regular-400.otf", "57f731fe9728946eea37155e8ca0479a"),
   ("Font Awesome 5 Free-Solid-900.otf", "6a001f8bc3ace8d0fff495ebd123413e"),
   ("elusiveicons-webfont.ttf", "207966b04c032d5b873fd595a211582e")]

/-- `IconicFont.load_font(prefix, font_filename, charmap_filename)`.
External inputs: `hasApp` (whether `QApplication.instance()` exists),
`families` (what `QFontDatabase.applicationFontFamilies` returned for the
file), `cm` (the decoded charmap JSON) and `fileHash` (the md5 digest of
the font file's bytes). Returns the post-call registry state together
with the raised error, if any: Python instance-attribute mutations
performed before a raise survive it. With no application instance the
whole body is skipped silently. -/
def load_font (st : IconicFont) (hasApp : Bool) (pfx font_filename : String)
    (families : List String) (cm : List (String × String)) (fileHash : String) :
    IconicFont × Option FontLoadErr :=
  if hasApp then
    match families with
    | [] => (st, some .emptyFamilies)
    | fam :: _ =>
      let st1 : IconicFont := { st with fontname := (pfx, fam) :: st.fontname }
      let st2 : IconicFont := { st1 with charmap := (pfx, cm) :: st1.charmap }
      if SYSTEM_FONTS then (st2, none)
      else
        match List.lookup font_filename md5_hashes with
        | some expected =>
          if fileHash ≠ expected then (st2, some .corrupt) else (st2, none)
        | none => (st2, none)
  else (st, none)

/-- Widget modes, per host toolkit convention (`QIcon.Mode`). -/
inductive QMode where
  | Normal
  | Disabled
  | Active
  | Selected
deriving DecidableEq

/-- Checkable-control states (`QIcon.State`). -/
inductive QState where
  | On
  | Off
deriving DecidableEq

/-- The painter state the module touches: pen color, font, opacity. -/
structure PCore where
  pen : Val
  font : Option (String × Frac)
  opacity : Val
deriving DecidableEq

/-- A `QPainter`: current state plus the `save`/`restore` stack. -/
structure Painter where
  core : PCore
  stack : List PCore
deriving DecidableEq

/-- `painter.save()`. -/
def painterSave (p : Painter) : Painter :=
  { core := p.core, stack := p.core :: p.stack }

/-- `painter.restore()` (no-op on an empty stack, as in Qt). -/
def painterRestore (p : Painter) : Painter :=
  match p.stack with
  | c :: s => { core := c, stack := s }
  | [] => p

/-- A drawing rectangle (`QRect`). -/
structure Rect where
  x : Frac
  y : Frac
  w : Frac
  h : Frac
deriving DecidableEq

/-- A record of one `painter.drawText` call: the rectangle, the text, and
the pen/font/opacity in force when the text was emitted. -/
structure DrawRec where
  rect : Rect
  text : Val
  pen : Val
  font : Option (String × Frac)
  opacity : Val
deriving DecidableEq

/-- Errors escaping `CharIconPainter._paint_icon`: a missing dictionary
key, a value of the wrong shape, a `KeyError` from the `fontname` lookup
inside `iconic.font`, or an exception out of `animation.setup`. -/
inductive PaintErr where
  | keyError (k : String)
  | typeError
  | fontKeyError
  | animRaised
deriving DecidableEq

/-- Python `options[k]` (raises `KeyError` when absent). -/
def pyidx (m : OptMap) (k : String) : Except PaintErr Val :=
  match List.lookup k m with
  | some v => .ok v
  | none => .error (.keyError k)

def pyidx2 (m : OptMap) (k1 k2 : String) : Except PaintErr (Val × Val) :=
  match pyidx m k1 with
  | .error e => .error e
  | .ok a =>
    match pyidx m k2 with
    | .error e => .error e
    | .ok b => .ok (a, b)

/-- An animation hook: `animation.setup(self, painter, rect)` transforms
the painter's current state and may raise (the error payload is the state
the hook left behind at the raise). Indexed by the handle stored in the
options. -/
abbrev AnimHook := Nat → PCore → Rect → Except PCore PCore

/-- Steps of `_paint_icon` after the animation hook: set the font from
`iconic.font(prefix, draw_size)` (a `KeyError` when the prefix has no
loaded font), translate the rectangle by the fractional offset, set the
opacity, draw the selected character centered in the rectangle. -/
def paint_body_tail (iconic : IconicFont) (c : PCore) (pstr : String)
    (draw_size : Frac) (rect : Rect) (options : OptMap) (sel : Val × Val) :
    Except (PCore × PaintErr) (PCore × DrawRec) :=
  match List.lookup pstr iconic.fontname with
  | none => .error (c, .fontKeyError)
  | some fam =>
    let c3 : PCore := { c with font := some (fam, draw_size) }
    match List.lookup "offset" options with
    | some (.pair dx dy) =>
      let rect2 : Rect :=
        { rect with x := Frac.add rect.x (Frac.mul dx rect.w),
                    y := Frac.add rect.y (Frac.mul dy rect.h) }
      let c4 : PCore := { c3 with opacity := pygetD options "opacity" (.num ⟨1, 1⟩) }
      .ok (c4, ⟨rect2, sel.2, c4.pen, c4.font, c4.opacity⟩)
    | some _ => .error (c3, .typeError)
    | none =>
      let c4 : PCore := { c3 with opacity := pygetD options "opacity" (.num ⟨1, 1⟩) }
      .ok (c4, ⟨rect, sel.2, c4.pen, c4.font, c4.opacity⟩)

/-- Body of `CharIconPainter._paint_icon` between `painter.save()` and
`painter.restore()`, in source order: read `color` and `char`, build the
(state, mode) grid reading all sixteen slot keys in literal order, select
the pair, set the pen, compute the draw size, read the prefix, run the
animation hook, then `paint_body_tail`. Returns the mutated core and the
draw record, or the core at the moment an exception was raised. -/
def paint_body (iconic : IconicFont) (anim : AnimHook) (c0 : PCore)
    (rect : Rect) (mode : QMode) (state : QState) (options : OptMap) :
    Except (PCore × PaintErr) (PCore × DrawRec) :=
  match pyidx options "color" with
  | .error e => .error (c0, e)
  | .ok _color0 =>
  match pyidx options "char" with
  | .error e => .error (c0, e)
  | .ok _char0 =>
  match pyidx2 options "color_on" "on" with
  | .error e => .error (c0, e)
  | .ok pOn =>
  match pyidx2 options "color_on_disabled" "on_disabled" with
  | .error e => .error (c0, e)
  | .ok pOnDis =>
  match pyidx2 options "color_on_active" "on_active" with
  | .error e => .error (c0, e)
  | .ok pOnAct =>
  match pyidx2 options "color_on_selected" "on_selected" with
  | .error e => .error (c0, e)
  | .ok pOnSel =>
  match pyidx2 options "color_off" "off" with
  | .error e => .error (c0, e)
  | .ok pOff =>
  match pyidx2 options "color_off_disabled" "off_disabled" with
  | .error e => .error (c0, e)
  | .ok pOffDis =>
  match pyidx2 options "color_off_active" "off_active" with
  | .error e => .error (c0, e)
  | .ok pOffAct =>
  match pyidx2 options "color_off_selected" "off_selected" with
  | .error e => .error (c0, e)
  | .ok pOffSel =>
  let sel :=
    match state, mode with
    | .On, .Normal => pOn
    | .On, .Disabled => pOnDis
    | .On, .Active => pOnAct
    | .On, .Selected => pOnSel
    | .Off, .Normal => pOff
    | .Off, .Disabled => pOffDis
    | .Off, .Active => pOffAct
    | .Off, .Selected => pOffSel
  let c1 : PCore := { c0 with pen := sel.1 }
  match pyidx options "scale_factor" with
  | .error e => .error (c1, e)
  | .ok sfv =>
  match sfv with
  | .num sf =>
    let draw_size : Frac := Frac.mul ⟨7, 8⟩ (Frac.ofInt (qRound (Frac.mul rect.h sf)))
    match pyidx options "prefix" with
    | .error e => .error (c1, e)
    | .ok pv =>
    match pv with
    | .str pstr =>
      match pyget options "animation" with
      | .pynone =>
        paint_body_tail iconic c1 pstr draw_size rect options sel
      | .anim i =>
        match anim i c1 rect with
        | .ok c2 => paint_body_tail iconic c2 pstr draw_size rect options sel
        | .error cerr => .error (cerr, .animRaised)
      | _ => .error (c1, .typeError)
    | _ => .error (c1, .typeError)
  | _ => .error (c1, .typeError)

/-- `CharIconPainter._paint_icon`: `painter.save()`, the body above, then
`painter.restore()` on the normal path only — the source has no
`try`/`finally`, so an exception propagates with the saved state still
pushed and the partial mutations in place. Returns the painter, the draw
record (on success) and the raised error (on failure). -/
def paint_icon (iconic : IconicFont) (anim : AnimHook) (p : Painter)
    (rect : Rect) (mode : QMode) (state : QState) (options : OptMap) :
    Painter × Option DrawRec × Option PaintErr :=
  let p1 := painterSave p
  match paint_body iconic anim p1.core rect mode state options with
  | .ok (c, rec) => (painterRestore { core := c, stack := p1.stack }, some rec, none)
  | .error (c, e) => ({ core := c, stack := p1.stack }, none, some e)

/-! Specification-side definitions, written from the spec's words, to be
compared with the source-shaped definitions above. -/

/-- Spec name cascade: `char` defaults to the glyph name itself. -/
def spec_char (m : OptMap) (n : String) : Val := pygetD m "char" (.str n)

/-- Spec name cascade: `on` falls back to `char`. -/
def spec_on (m : OptMap) (n : String) : Val := pygetD m "on" (spec_char m n)

/-- Spec name cascade: `off` falls back to `char`. -/
def spec_off (m : OptMap) (n : String) : Val := pygetD m "off" (spec_char m n)

/-- Spec name cascade: `active` falls back to `on`. -/
def spec_active (m : OptMap) (n : String) : Val := pygetD m "active" (spec_on m n)

/-- Spec name cascade: `selected` falls back to `active`. -/
def spec_selected (m : OptMap) (n : String) : Val :=
  pygetD m "selected" (spec_active m n)

/-- Spec name cascade: `disabled` falls back to `char` (not to `active`
or `on`). -/
def spec_disabled (m : OptMap) (n : String) : Val :=
  pygetD m "disabled" (spec_char m n)

/-- Spec name cascade: `on_active` falls back to `active`. -/
def spec_on_active (m : OptMap) (n : String) : Val :=
  pygetD m "on_active" (spec_active m n)

/-- Spec name cascade: `on_selected` falls back to `selected`. -/
def spec_on_selected (m : OptMap) (n : String) : Val :=
  pygetD m "on_selected" (spec_selected m n)

/-- Spec name cascade: `on_disabled` falls back to `disabled`. -/
def spec_on_disabled (m : OptMap) (n : String) : Val :=
  pygetD m "on_disabled" (spec_disabled m n)

/-- Spec name cascade: `off_active` falls back to `active`. -/
def spec_off_active (m : OptMap) (n : String) : Val :=
  pygetD m "off_active" (spec_active m n)

/-- Spec name cascade: `off_selected` falls back to `selected`. -/
def spec_off_selected (m : OptMap) (n : String) : Val :=
  pygetD m "off_selected" (spec_selected m n)

/-- Spec name cascade: `off_disabled` falls back to `disabled`. -/
def spec_off_disabled (m : OptMap) (n : String) : Val :=
  pygetD m "off_disabled" (spec_disabled m n)

/-- The twelve spec-cascaded name slots in `icon_kw` order. -/
def specNameSlots (m : OptMap) (n : String) : List Val :=
  [spec_char m n, spec_on m n, spec_off m n, spec_active m n,
   spec_selected m n, spec_disabled m n, spec_on_active m n,
   spec_on_selected m n, spec_on_disabled m n, spec_off_active m n,
   spec_off_selected m n, spec_off_disabled m n]

/-- Spec color cascade: `color_on` falls back to `color`. -/
def spec_color_on (m : OptMap) : Val := pygetD m "color_on" (pyget m "color")

/-- Spec color cascade: `color_active` falls back to `color_on`. -/
def spec_color_active (m : OptMap) : Val :=
  pygetD m "color_active" (spec_color_on m)

/-- Spec color cascade: `color_selected` falls back to `color_active`. -/
def spec_color_selected (m : OptMap) : Val :=
  pygetD m "color_selected" (spec_color_active m)

/-- Spec color cascade: `color_on_active` falls back to `color_active`. -/
def spec_color_on_active (m : OptMap) : Val :=
  pygetD m "color_on_active" (spec_color_active m)

/-- Spec color cascade: `color_on_selected` falls back to
`color_selected`. -/
def spec_color_on_selected (m : OptMap) : Val :=
  pygetD m "color_on_selected" (spec_color_selected m)

/-- Spec color cascade: `color_on_disabled` falls back to
`color_disabled` (not derived from `color`). -/
def spec_color_on_disabled (m : OptMap) : Val :=
  pygetD m "color_on_disabled" (pyget m "color_disabled")

/-- Spec color cascade: `color_off` falls back to `color`. -/
def spec_color_off (m : OptMap) : Val := pygetD m "color_off" (pyget m "color")

/-- Spec color cascade: `color_off_active` falls back to `color_active`. -/
def spec_color_off_active (m : OptMap) : Val :=
  pygetD m "color_off_active" (spec_color_active m)

/-- Spec color cascade: `color_off_selected` falls back to
`color_selected`. -/
def spec_color_off_selected (m : OptMap) : Val :=
  pygetD m "color_off_selected" (spec_color_selected m)

/-- Spec color cascade: `color_off_disabled` falls back to
`color_disabled`. -/
def spec_color_off_disabled (m : OptMap) : Val :=
  pygetD m "color_off_disabled" (pyget m "color_disabled")

/-- The ten cascaded color slot keys. -/
def color_slot_keys : List String :=
  ["color_on", "color_active", "color_selected", "color_on_active",
   "color_on_selected", "color_on_disabled", "color_off",
   "color_off_active", "color_off_selected", "color_off_disabled"]

/-- The font family `_paint_icon` will draw with, as a function of the
options dict alone: the family registered for the stored `prefix`. Takes
neither the mode nor the state. -/
def body_font_family (iconic : IconicFont) (options : OptMap) : Option String :=
  match List.lookup "prefix" options with
  | some (.str p) => List.lookup p iconic.fontname
  | _ => none

/-- The defaults dict after applying a run of keyword arguments, all of
them valid; mirrors the writes performed by `set_global_defaults` before
it meets an invalid key. -/
def applyDefaults (dflt : OptMap) (pre : List (String × Val)) : OptMap :=
  pre.foldl (fun acc kv => kv :: acc) dflt

/-- Whether a slot value resolves in the registry (used to phrase "the
slots iterated before the failing one are fine"). -/
def resolveOk (st : IconicFont) (v : Val) : Bool :=
  match resolveOne st v with
  | .ok _ => true
  | .error _ => false

/-- A one-collection registry used by the concrete witnesses: prefix
`"fa"` with family `"FamilyA"` and the single glyph `"flag"` at the
character `"F"`. -/
def sampleFont : IconicFont := ⟨[("fa", "FamilyA")], [("fa", [("flag", "F")])]⟩

/-- The option dict `_parse_options` produces for `icon('fa.flag')` on
`sampleFont` with no overrides; used by the concrete witnesses. -/
def sampleParsed : OptMap :=
  [("color_off_disabled", .color 150 150 150),
   ("color_off_selected", .color 50 50 50),
   ("color_off_active", .color 50 50 50),
   ("color_off", .color 50 50 50),
   ("color_on_disabled", .color 150 150 150),
   ("color_on_selected", .color 50 50 50),
   ("color_on_active", .color 50 50 50),
   ("color_selected", .color 50 50 50),
   ("color_active", .color 50 50 50),
   ("color_on", .color 50 50 50),
   ("prefix", .str "fa"),
   ("char", .str "F"),
   ("on", .str "F"),
   ("off", .str "F"),
   ("active", .str "F"),
   ("selected", .str "F"),
   ("disabled", .str "F"),
   ("on_active", .str "F"),
   ("on_selected", .str "F"),
   ("on_disabled", .str "F"),
   ("off_active", .str "F"),
   ("off_selected", .str "F"),
   ("off_disabled", .str "F"),
   ("color", .color 50 50 50),
   ("color_disabled", .color 150 150 150),
   ("opacity", .num ⟨1, 1⟩),
   ("scale_factor", .num ⟨1, 1⟩)]

/-! Helper lemmas about the dictionary model. -/

theorem lookup_setdefault (m : OptMap) (k v k') :
    List.lookup k' (setdefault m k v) =
      if k' = k then some ((List.lookup k m).getD v) else List.lookup k' m := by
  unfold setdefault
  rcases h : List.lookup k m with _ | w
  · by_cases hk : k' = k
    · subst hk
      simp [List.lookup, h]
    · have hb : (k' == k) = false := beq_eq_false_iff_ne.mpr hk
      simp [List.lookup, hb, hk, h]
  · by_cases hk : k' = k
    · subst hk
      simp [h]
    · simp [hk]

theorem lookup_append (k : String) (l1 l2 : OptMap) :
    List.lookup k (l1 ++ l2) = (List.lookup k l1).orElse (fun _ => List.lookup k l2) := by
  induction l1 with
  | nil => simp [List.lookup]
  | cons a rest ih =>
    by_cases hk : k = a.1
    · simp [List.lookup, hk]
    · have hb : (k == a.1) = false := beq_eq_false_iff_ne.mpr hk
      simp [List.lookup, hb, ih]

theorem lookup_zip_not_mem {k : String} (ks : List String) (vs : List Val)
    (h : k ∉ ks) : List.lookup k (ks.zip vs) = none := by
  induction ks generalizing vs with
  | nil => simp [List.lookup]
  | cons a rest ih =>
    cases vs with
    | nil => simp [List.lookup]
    | cons b bs =>
      have hka : k ≠ a := fun he => h (he ▸ List.mem_cons_self a rest)
      have hrest : k ∉ rest := fun hm => h (List.mem_cons_of_mem a hm)
      have hb : (k == a) = false := beq_eq_false_iff_ne.mpr hka
      have := ih bs hrest
      simp only [List.zip] at this ⊢
      simp [List.lookup, hb, this]

theorem lookup_zip_isSome {k : String} (ks : List String) (vs : List Val)
    (hmem : k ∈ ks) (hlen : vs.length = ks.length) :
    (List.lookup k (ks.zip vs)).isSome = true := by
  induction ks generalizing vs with
  | nil => cases hmem
  | cons a rest ih =>
    cases vs with
    | nil => simp at hlen
    | cons b bs =>
      by_cases hka : k = a
      · simp [List.zip, List.lookup, hka]
      · rcases List.mem_cons.mp hmem with he | hm
        · exact absurd he hka
        · have hlen' : bs.length = rest.length := by simpa using hlen
          have hb : (k == a) = false := beq_eq_false_iff_ne.mpr hka
          have := ih bs hm hlen'
          simp only [List.zip] at this ⊢
          simp [List.lookup, hb, this]

/-- C1. For every icon() call the resolver fills the 12 name slots by the
exact fallback chain of the spec over the merged option mapping: `char`
defaults to the glyph name, `on` and `off` fall back to `char`, `active`
to `on`, `selected` to `active`, `disabled` to `char` (not to `active` or
`on`), `on_active` and `off_active` to `active`, `on_selected` and
`off_selected` to `selected`, `on_disabled` and `off_disabled` to
`disabled`; with no overrides the `disabled` slot equals the `char`
slot. -/
theorem name_cascade_matches_spec :
    (∀ (m : OptMap) (n : String), resolveNames m n = specNameSlots m n) ∧
    (∀ (n : String),
      (resolveNames (mergedOptions [] []) n).get? 5 =
        (resolveNames (mergedOptions [] []) n).get? 0) := by
  constructor
  · intro m n
    rfl
  · intro n
    rfl

theorem color_stage_on (m : OptMap) :
    pyget (color_stage m) "color_on" = spec_color_on m := by
  simp [color_stage, color_stage11, color_stage10, color_stage9,
    color_stage8, color_stage7, color_stage6, color_stage5, color_stage4,
    color_stage3, pyget, pygetD, lookup_setdefault, spec_color_on]

theorem color_stage_active (m : OptMap) :
    pyget (color_stage m) "color_active" = spec_color_active m := by
  simp [color_stage, color_stage11, color_stage10, color_stage9,
    color_stage8, color_stage7, color_stage6, color_stage5, color_stage4,
    color_stage3, pyget, pygetD, lookup_setdefault, spec_color_active,
    spec_color_on]

theorem color_stage_selected (m : OptMap) :
    pyget (color_stage m) "color_selected" = spec_color_selected m := by
  simp [color_stage, color_stage11, color_stage10, color_stage9,
    color_stage8, color_stage7, color_stage6, color_stage5, color_stage4,
    color_stage3, pyget, pygetD, lookup_setdefault, spec_color_selected,
    spec_color_active, spec_color_on]

theorem color_stage_on_active (m : OptMap) :
    pyget (color_stage m) "color_on_active" = spec_color_on_active m := by
  simp [color_stage, color_stage11, color_stage10, color_stage9,
    color_stage8, color_stage7, color_stage6, color_stage5, color_stage4,
    color_stage3, pyget, pygetD, lookup_setdefault, spec_color_on_active,
    spec_color_active, spec_color_on]

theorem color_stage_on_selected (m : OptMap) :
    pyget (color_stage m) "color_on_selected" = spec_color_on_selected m := by
  simp [color_stage, color_stage11, color_stage10, color_stage9,
    color_stage8, color_stage7, color_stage6, color_stage5, color_stage4,
    color_stage3, pyget, pygetD, lookup_setdefault, spec_color_on_selected,
    spec_color_selected, spec_color_active, spec_color_on]

theorem color_stage_on_disabled (m : OptMap) :
    pyget (color_stage m) "color_on_disabled" = spec_color_on_disabled m := by
  simp [color_stage, color_stage11, color_stage10, color_stage9,
    color_stage8, color_stage7, color_stage6, color_stage5, color_stage4,
    color_stage3, pyget, pygetD, lookup_setdefault, spec_color_on_disabled]

theorem color_stage_off (m : OptMap) :
    pyget (color_stage m) "color_off" = spec_color_off m := by
  simp [color_stage, color_stage11, color_stage10, color_stage9,
    color_stage8, color_stage7, color_stage6, color_stage5, color_stage4,
    color_stage3, pyget, pygetD, lookup_setdefault, spec_color_off]

theorem color_stage_off_active (m : OptMap) :
    pyget (color_stage m) "color_off_active" = spec_color_off_active m := by
  simp [color_stage, color_stage11, color_stage10, color_stage9,
    color_stage8, color_stage7, color_stage6, color_stage5, color_stage4,
    color_stage3, pyget, pygetD, lookup_setdefault, spec_color_off_active,
    spec_color_active, spec_color_on]

theorem color_stage_off_selected (m : OptMap) :
    pyget (color_stage m) "color_off_selected" = spec_color_off_selected m := by
  simp [color_stage, color_stage11, color_stage10, color_stage9,
    color_stage8, color_stage7, color_stage6, color_stage5, color_stage4,
    color_stage3, pyget, pygetD, lookup_setdefault, spec_color_off_selected,
    spec_color_selected, spec_color_active, spec_color_on]

theorem color_stage_off_disabled (m : OptMap) :
    pyget (color_stage m) "color_off_disabled" = spec_color_off_disabled m := by
  simp [color_stage, color_stage11, color_stage10, color_stage9,
    color_stage8, color_stage7, color_stage6, color_stage5, color_stage4,
    color_stage3, pyget, pygetD, lookup_setdefault, spec_color_off_disabled]

theorem lookup_options2 (sp g : OptMap) (p : String) (chars : List Val)
    (k : String) (hk1 : k ∉ icon_kw) (hk2 : k ≠ "prefix") :
    List.lookup k
        (("prefix", Val.str p) :: (List.zip icon_kw chars ++ mergedOptions sp g)) =
      List.lookup k (mergedOptions sp g) := by
  have hb : (k == "prefix") = false := beq_eq_false_iff_ne.mpr hk2
  simp [List.lookup, hb, lookup_append, lookup_zip_not_mem _ _ hk1]

theorem spec_colors_ignore_nameslots (sp g : OptMap) (p : String) (chars : List Val) :
    spec_color_on (("prefix", Val.str p) :: (List.zip icon_kw chars ++ mergedOptions sp g)) =
        spec_color_on (mergedOptions sp g) ∧
    spec_color_active (("prefix", Val.str p) :: (List.zip icon_kw chars ++ mergedOptions sp g)) =
        spec_color_active (mergedOptions sp g) ∧
    spec_color_selected (("prefix", Val.str p) :: (List.zip icon_kw chars ++ mergedOptions sp g)) =
        spec_color_selected (mergedOptions sp g) ∧
    spec_color_on_active (("prefix", Val.str p) :: (List.zip icon_kw chars ++ mergedOptions sp g)) =
        spec_color_on_active (mergedOptions sp g) ∧
    spec_color_on_selected (("prefix", Val.str p) :: (List.zip icon_kw chars ++ mergedOptions sp g)) =
        spec_color_on_selected (mergedOptions sp g) ∧
    spec_color_on_disabled (("prefix", Val.str p) :: (List.zip icon_kw chars ++ mergedOptions sp g)) =
        spec_color_on_disabled (mergedOptions sp g) ∧
    spec_color_off (("prefix", Val.str p) :: (List.zip icon_kw chars ++ mergedOptions sp g)) =
        spec_color_off (mergedOptions sp g) ∧
    spec_color_off_active (("prefix", Val.str p) :: (List.zip icon_kw chars ++ mergedOptions sp g)) =
        spec_color_off_active (mergedOptions sp g) ∧
    spec_color_off_selected (("prefix", Val.str p) :: (List.zip icon_kw chars ++ mergedOptions sp g)) =
        spec_color_off_selected (mergedOptions sp g) ∧
    spec_color_off_disabled (("prefix", Val.str p) :: (List.zip icon_kw chars ++ mergedOptions sp g)) =
        spec_color_off_disabled (mergedOptions sp g) := by
  have L := lookup_options2 sp g p chars
  refine ⟨?_, ?_, ?_, ?_, ?_, ?_, ?_, ?_, ?_, ?_⟩ <;>
    simp only [spec_color_on, spec_color_active, spec_color_selected,
      spec_color_on_active, spec_color_on_selected, spec_color_on_disabled,
      spec_color_off, spec_color_off_active, spec_color_off_selected,
      spec_color_off_disabled, pyget, pygetD,
      L "color" (by decide) (by decide),
      L "color_disabled" (by decide) (by decide),
      L "color_on" (by decide) (by decide),
      L "color_active" (by decide) (by decide),
      L "color_selected" (by decide) (by decide),
      L "color_on_active" (by decide) (by decide),
      L "color_on_selected" (by decide) (by decide),
      L "color_on_disabled" (by decide) (by decide),
      L "color_off" (by decide) (by decide),
      L "color_off_active" (by decide) (by decide),
      L "color_off_selected" (by decide) (by decide),
      L "color_off_disabled" (by decide) (by decide)]

/-- C2. For every icon() call on which resolution succeeds, the resolver
fills the color slots by the spec's exact fallback chain over the merged
option mapping, independent of the name cascade: `color_on` falls back to
`color`, `color_active` to `color_on`, `color_selected` to
`color_active`, `color_on_active` to `color_active`, `color_on_selected`
to `color_selected`, `color_on_disabled` to `color_disabled` (the global
disabled default, not derived from `color`), `color_off` to `color`,
`color_off_active` to `color_active`, `color_off_selected` to
`color_selected`, and `color_off_disabled` to `color_disabled`. -/
theorem color_cascade_matches_spec (st : IconicFont) (sp g : OptMap)
    (name : String) (o : OptMap) (h : parse_options st sp g name = .ok o) :
    pyget o "color_on" = spec_color_on (mergedOptions sp g) ∧
    pyget o "color_active" = spec_color_active (mergedOptions sp g) ∧
    pyget o "color_selected" = spec_color_selected (mergedOptions sp g) ∧
    pyget o "color_on_active" = spec_color_on_active (mergedOptions sp g) ∧
    pyget o "color_on_selected" = spec_color_on_selected (mergedOptions sp g) ∧
    pyget o "color_on_disabled" = spec_color_on_disabled (mergedOptions sp g) ∧
    pyget o "color_off" = spec_color_off (mergedOptions sp g) ∧
    pyget o "color_off_active" = spec_color_off_active (mergedOptions sp g) ∧
    pyget o "color_off_selected" = spec_color_off_selected (mergedOptions sp g) ∧
    pyget o "color_off_disabled" = spec_color_off_disabled (mergedOptions sp g) := by
  unfold parse_options at h
  simp only [] at h
  split at h
  · exact absurd h (by simp)
  · rename_i pfx chars _heq
    rw [Except.ok.injEq] at h
    subst h
    obtain ⟨e1, e2, e3, e4, e5, e6, e7, e8, e9, e10⟩ :=
      spec_colors_ignore_nameslots sp g pfx (chars.map Val.str)
    exact ⟨(color_stage_on _).trans e1,
      (color_stage_active _).trans e2,
      (color_stage_selected _).trans e3,
      (color_stage_on_active _).trans e4,
      (color_stage_on_selected _).trans e5,
      (color_stage_on_disabled _).trans e6,
      (color_stage_off _).trans e7,
      (color_stage_off_active _).trans e8,
      (color_stage_off_selected _).trans e9,
      (color_stage_off_disabled _).trans e10⟩

/-- Witness for C2 at a one-glyph registry and the call
`icon('fa.flag')`. -/
theorem color_cascade_matches_spec_witness :
    parse_options ⟨[("fa", "FamilyA")], [("fa", [("flag", "F")])]⟩ [] [] "fa.flag" =
        .ok [("color_off_disabled", .color 150 150 150),
             ("color_off_selected", .color 50 50 50),
             ("color_off_active", .color 50 50 50),
             ("color_off", .color 50 50 50),
             ("color_on_disabled", .color 150 150 150),
             ("color_on_selected", .color 50 50 50),
             ("color_on_active", .color 50 50 50),
             ("color_selected", .color 50 50 50),
             ("color_active", .color 50 50 50),
             ("color_on", .color 50 50 50),
             ("prefix", .str "fa"),
             ("char", .str "F"),
             ("on", .str "F"),
             ("off", .str "F"),
             ("active", .str "F"),
             ("selected", .str "F"),
             ("disabled", .str "F"),
             ("on_active", .str "F"),
             ("on_selected", .str "F"),
             ("on_disabled", .str "F"),
             ("off_active", .str "F"),
             ("off_selected", .str "F"),
             ("off_disabled", .str "F"),
             ("color", .color 50 50 50),
             ("color_disabled", .color 150 150 150),
             ("opacity", .num ⟨1, 1⟩),
             ("scale_factor", .num ⟨1, 1⟩)] ∧
      pyget [("color_off_disabled", Val.color 150 150 150),
             ("color_off_selected", .color 50 50 50),
             ("color_off_active", .color 50 50 50),
             ("color_off", .color 50 50 50),
             ("color_on_disabled", .color 150 150 150),
             ("color_on_selected", .color 50 50 50),
             ("color_on_active", .color 50 50 50),
             ("color_selected", .color 50 50 50),
             ("color_active", .color 50 50 50),
             ("color_on", .color 50 50 50),
             ("prefix", .str "fa"),
             ("char", .str "F"),
             ("on", .str "F"),
             ("off", .str "F"),
             ("active", .str "F"),
             ("selected", .str "F"),
             ("disabled", .str "F"),
             ("on_active", .str "F"),
             ("on_selected", .str "F"),
             ("on_disabled", .str "F"),
             ("off_active", .str "F"),
             ("off_selected", .str "F"),
             ("off_disabled", .str "F"),
             ("color", .color 50 50 50),
             ("color_disabled", .color 150 150 150),
             ("opacity", .num ⟨1, 1⟩),
             ("scale_factor", .num ⟨1, 1⟩)] "color_on_disabled" =
        spec_color_on_disabled (mergedOptions [] []) :=
  ⟨by decide,
   ((color_cascade_matches_spec ⟨[("fa", "FamilyA")], [("fa", [("flag", "F")])]⟩
      [] [] "fa.flag" _ (by decide)).2.2.2.2.2.1)⟩

theorem get_pfx_chars_loop_length (st : IconicFont) :
    ∀ (vs : List Val) (po : Option String) (acc : List String)
      (po' : Option String) (chars : List String),
      get_pfx_chars_loop st vs po acc = .ok (po', chars) →
      chars.length = vs.length + acc.length := by
  intro vs
  induction vs with
  | nil =>
    intro po acc po' chars h
    simp only [get_pfx_chars_loop, Except.ok.injEq, Prod.mk.injEq] at h
    rw [← h.2]
    simp
  | cons v rest ih =>
    intro po acc po' chars h
    simp only [get_pfx_chars_loop] at h
    rcases hr : resolveOne st v with e | pc
    · rw [hr] at h
      exact absurd h (by simp)
    · rw [hr] at h
      have := ih (some pc.1) (pc.2 :: acc) po' chars h
      simp at this
      simp [this]
      omega

theorem get_pfx_chars_length (st : IconicFont) (names : List Val) (p : String)
    (chars : List String) (h : get_pfx_chars st names = .ok (p, chars)) :
    chars.length = names.length := by
  unfold get_pfx_chars at h
  split at h
  · rename_i q cs heq
    rw [Except.ok.injEq, Prod.mk.injEq] at h
    obtain ⟨h1, h2⟩ := h
    subst h2
    have := get_pfx_chars_loop_length st names none [] (some q) cs heq
    simpa using this
  · exact absurd h (by simp)
  · exact absurd h (by simp)

theorem isSome_lookup_setdefault (m : OptMap) (k : String) (v : Val) (k' : String)
    (h : (List.lookup k' m).isSome = true) :
    (List.lookup k' (setdefault m k v)).isSome = true := by
  rw [lookup_setdefault]
  by_cases hk : k' = k
  · simp [hk]
  · simp [hk, h]

theorem isSome_lookup_setdefault_self (m : OptMap) (k : String) (v : Val) :
    (List.lookup k (setdefault m k v)).isSome = true := by
  rw [lookup_setdefault]
  simp

theorem color_stage_isSome_from11 (m : OptMap) (k : String)
    (h : (List.lookup k (color_stage11 m)).isSome = true) :
    (List.lookup k (color_stage m)).isSome = true :=
  isSome_lookup_setdefault _ _ _ _ h

theorem color_stage_isSome_from10 (m : OptMap) (k : String)
    (h : (List.lookup k (color_stage10 m)).isSome = true) :
    (List.lookup k (color_stage m)).isSome = true :=
  color_stage_isSome_from11 m k (isSome_lookup_setdefault _ _ _ _ h)

theorem color_stage_isSome_from9 (m : OptMap) (k : String)
    (h : (List.lookup k (color_stage9 m)).isSome = true) :
    (List.lookup k (color_stage m)).isSome = true :=
  color_stage_isSome_from10 m k (isSome_lookup_setdefault _ _ _ _ h)

theorem color_stage_isSome_from8 (m : OptMap) (k : String)
    (h : (List.lookup k (color_stage8 m)).isSome = true) :
    (List.lookup k (color_stage m)).isSome = true :=
  color_stage_isSome_from9 m k (isSome_lookup_setdefault _ _ _ _ h)

theorem color_stage_isSome_from7 (m : OptMap) (k : String)
    (h : (List.lookup k (color_stage7 m)).isSome = true) :
    (List.lookup k (color_stage m)).isSome = true :=
  color_stage_isSome_from8 m k (isSome_lookup_setdefault _ _ _ _ h)

theorem color_stage_isSome_from6 (m : OptMap) (k : String)
    (h : (List.lookup k (color_stage6 m)).isSome = true) :
    (List.lookup k (color_stage m)).isSome = true :=
  color_stage_isSome_from7 m k (isSome_lookup_setdefault _ _ _ _ h)

theorem color_stage_isSome_from5 (m : OptMap) (k : String)
    (h : (List.lookup k (color_stage5 m)).isSome = true) :
    (List.lookup k (color_stage m)).isSome = true :=
  color_stage_isSome_from6 m k (isSome_lookup_setdefault _ _ _ _ h)

theorem color_stage_isSome_from4 (m : OptMap) (k : String)
    (h : (List.lookup k (color_stage4 m)).isSome = true) :
    (List.lookup k (color_stage m)).isSome = true :=
  color_stage_isSome_from5 m k (isSome_lookup_setdefault _ _ _ _ h)

theorem color_stage_isSome_from3 (m : OptMap) (k : String)
    (h : (List.lookup k (color_stage3 m)).isSome = true) :
    (List.lookup k (color_stage m)).isSome = true :=
  color_stage_isSome_from4 m k (isSome_lookup_setdefault _ _ _ _ h)

theorem color_stage_isSome_mono (m : OptMap) (k : String)
    (h : (List.lookup k m).isSome = true) :
    (List.lookup k (color_stage m)).isSome = true :=
  color_stage_isSome_from3 m k (isSome_lookup_setdefault _ _ _ _ h)

theorem color_stage_sets_colors (m : OptMap) :
    ∀ k ∈ color_slot_keys, (List.lookup k (color_stage m)).isSome = true := by
  intro k hk
  simp only [color_slot_keys, List.mem_cons, List.not_mem_nil, or_false] at hk
  rcases hk with rfl | rfl | rfl | rfl | rfl | rfl | rfl | rfl | rfl | rfl
  · exact color_stage_isSome_from3 m _ (isSome_lookup_setdefault_self _ _ _)
  · exact color_stage_isSome_from4 m _ (isSome_lookup_setdefault_self _ _ _)
  · exact color_stage_isSome_from5 m _ (isSome_lookup_setdefault_self _ _ _)
  · exact color_stage_isSome_from6 m _ (isSome_lookup_setdefault_self _ _ _)
  · exact color_stage_isSome_from7 m _ (isSome_lookup_setdefault_self _ _ _)
  · exact color_stage_isSome_from8 m _ (isSome_lookup_setdefault_self _ _ _)
  · exact color_stage_isSome_from9 m _ (isSome_lookup_setdefault_self _ _ _)
  · exact color_stage_isSome_from10 m _ (isSome_lookup_setdefault_self _ _ _)
  · exact color_stage_isSome_from11 m _ (isSome_lookup_setdefault_self _ _ _)
  · exact isSome_lookup_setdefault_self _ _ _

/-- C3. For every glyph name and every pair of override mappings on which
resolution succeeds, the returned Render Options bind all 12 name slots
and all 10 cascaded color slots to a concrete value: no slot is left
unset in the option dict. -/
theorem parse_slots_all_populated (st : IconicFont) (sp g : OptMap)
    (name : String) (o : OptMap) (h : parse_options st sp g name = .ok o) :
    ∀ k ∈ icon_kw ++ color_slot_keys, (List.lookup k o).isSome = true := by
  unfold parse_options at h
  simp only [] at h
  split at h
  · exact absurd h (by simp)
  · rename_i pfx chars heq
    rw [Except.ok.injEq] at h
    subst h
    have hlen : chars.length = 12 := by
      have := get_pfx_chars_length st _ _ _ heq
      simpa [resolveNames] using this
    intro k hk
    rw [List.mem_append] at hk
    rcases hk with hk | hk
    · have hzip : (List.lookup k (List.zip icon_kw (chars.map Val.str))).isSome = true := by
        apply lookup_zip_isSome _ _ hk
        simp [hlen, icon_kw]
      apply color_stage_isSome_mono
      rcases Option.isSome_iff_exists.mp hzip with ⟨v, hv⟩
      by_cases hkp : k = "prefix"
      · simp [List.lookup, hkp]
      · have hb : (k == "prefix") = false := beq_eq_false_iff_ne.mpr hkp
        simp [List.lookup, hb, lookup_append, hv]
    · exact color_stage_sets_colors _ k hk

/-- Witness for C3: the resolution of `icon('fa.flag')` succeeds and the
first and last slot keys are both bound. -/
theorem parse_slots_all_populated_witness :
    (List.lookup "char"
        ((parse_options ⟨[("fa", "FamilyA")], [("fa", [("flag", "F")])]⟩
            [] [] "fa.flag").toOption.getD [])).isSome = true ∧
      (List.lookup "color_off_disabled"
        ((parse_options ⟨[("fa", "FamilyA")], [("fa", [("flag", "F")])]⟩
            [] [] "fa.flag").toOption.getD [])).isSome = true := by
  constructor
  · exact parse_slots_all_populated ⟨[("fa", "FamilyA")], [("fa", [("flag", "F")])]⟩
      [] [] "fa.flag" _ (by decide) "char" (by decide)
  · exact parse_slots_all_populated ⟨[("fa", "FamilyA")], [("fa", [("flag", "F")])]⟩
      [] [] "fa.flag" _ (by decide) "color_off_disabled" (by decide)

theorem loop_error_at (st : IconicFont) :
    ∀ (pre : List Val) (po : Option String) (acc : List String) (v : Val)
      (rest : List Val) (e : GlyphErr),
      (∀ u ∈ pre, resolveOk st u = true) → resolveOne st v = .error e →
      get_pfx_chars_loop st (pre ++ v :: rest) po acc = .error e := by
  intro pre
  induction pre with
  | nil =>
    intro po acc v rest e _ hv
    simp [get_pfx_chars_loop, hv]
  | cons u us ih =>
    intro po acc v rest e hall hv
    have hu : resolveOk st u = true := hall u (List.mem_cons_self u us)
    unfold resolveOk at hu
    rcases hr : resolveOne st u with e' | pc
    · rw [hr] at hu
      simp at hu
    · have hall' : ∀ w ∈ us, resolveOk st w = true :=
        fun w hw => hall w (List.mem_cons_of_mem u hw)
      simp only [List.cons_append, get_pfx_chars_loop, hr]
      exact ih (some pc.1) (pc.2 :: acc) v rest e hall' hv

theorem get_pfx_chars_error_at (st : IconicFont) (pre : List Val) (v : Val)
    (rest : List Val) (e : GlyphErr)
    (hall : ∀ u ∈ pre, resolveOk st u = true)
    (hv : resolveOne st v = .error e) :
    get_pfx_chars st (pre ++ v :: rest) = .error e := by
  unfold get_pfx_chars
  rw [loop_error_at st pre none [] v rest e hall hv]

/-- C7. For every icon() call with an application present: a resolved
name slot whose prefix is not a registered collection makes the call fail
with the unknown-prefix error; a registered prefix whose glyph name is
not in the collection's charmap makes it fail with the unknown-glyph
error; a name without the dotted "prefix.name" form makes it fail with
the invalid-name error (in each case, provided the slots iterated before
the offending one resolve); and the error propagates out of `icon` as
raised, with no icon returned. -/
theorem glyph_lookup_error_taxonomy (st : IconicFont) :
    (∀ (pre rest : List Val) (s : String),
      (∀ u ∈ pre, resolveOk st u = true) → containsDot s = false →
      get_pfx_chars st (pre ++ .str s :: rest) = .error .invalidIconName) ∧
    (∀ (pre rest : List Val) (s p n : String),
      (∀ u ∈ pre, resolveOk st u = true) → containsDot s = true →
      pySplitDot s = [p, n] → List.lookup p st.charmap = none →
      get_pfx_chars st (pre ++ .str s :: rest) = .error (.unknownPfx p)) ∧
    (∀ (pre rest : List Val) (s p n : String) (cmap : List (String × String)),
      (∀ u ∈ pre, resolveOk st u = true) → containsDot s = true →
      pySplitDot s = [p, n] → List.lookup p st.charmap = some cmap →
      List.lookup n cmap = none →
      get_pfx_chars st (pre ++ .str s :: rest) = .error (.unknownGlyph n p)) ∧
    (∀ (name : String) (e : GlyphErr),
      get_pfx_chars st (resolveNames (mergedOptions [] []) name) = .error e →
      icon st true [name] none [] = .error (.glyph e)) := by
  refine ⟨?_, ?_, ?_, ?_⟩
  · intro pre rest s hall hs
    exact get_pfx_chars_error_at st pre _ rest _ hall (by simp [resolveOne, hs])
  · intro pre rest s p n hall hs hsplit hnone
    exact get_pfx_chars_error_at st pre _ rest _ hall
      (by simp [resolveOne, hs, hsplit, hnone])
  · intro pre rest s p n cmap hall hs hsplit hcm hnone
    exact get_pfx_chars_error_at st pre _ rest _ hall
      (by simp [resolveOne, hs, hsplit, hcm, hnone])
  · intro name e h
    simp [icon, parseAllWith, parse_options, h]

/-- Witness for C7 over a one-glyph registry: a dotless name, an
unregistered prefix, an unknown glyph, and the propagation of the
unknown-prefix error out of `icon('bad.flag')`. -/
theorem glyph_lookup_error_taxonomy_witness :
    get_pfx_chars ⟨[("fa", "FamilyA")], [("fa", [("flag", "F")])]⟩
        [.str "fa.flag", .str "flag"] = .error .invalidIconName ∧
    get_pfx_chars ⟨[("fa", "FamilyA")], [("fa", [("flag", "F")])]⟩
        [.str "fa.flag", .str "bad.flag"] = .error (.unknownPfx "bad") ∧
    get_pfx_chars ⟨[("fa", "FamilyA")], [("fa", [("flag", "F")])]⟩
        [.str "fa.flag", .str "fa.nope"] = .error (.unknownGlyph "nope" "fa") ∧
    icon ⟨[("fa", "FamilyA")], [("fa", [("flag", "F")])]⟩ true ["bad.flag"]
        none [] = .error (.glyph (.unknownPfx "bad")) :=
  ⟨(glyph_lookup_error_taxonomy _).1 [.str "fa.flag"] [] "flag"
      (by decide) (by decide),
   (glyph_lookup_error_taxonomy _).2.1 [.str "fa.flag"] [] "bad.flag" "bad"
      "flag" (by decide) (by decide) (by decide) (by decide),
   (glyph_lookup_error_taxonomy _).2.2.1 [.str "fa.flag"] [] "fa.nope" "fa"
      "nope" [("flag", "F")] (by decide) (by decide) (by decide) (by decide)
      (by decide),
   (glyph_lookup_error_taxonomy _).2.2.2 "bad.flag" (.unknownPfx "bad")
      (by decide)⟩

theorem loop_last (st : IconicFont) :
    ∀ (vs0 : List Val) (v : Val) (po : Option String) (acc : List String)
      (po' : Option String) (chars : List String),
      get_pfx_chars_loop st (vs0 ++ [v]) po acc = .ok (po', chars) →
      ∃ q c, resolveOne st v = .ok (q, c) ∧ po' = some q := by
  intro vs0
  induction vs0 with
  | nil =>
    intro v po acc po' chars h
    simp only [List.nil_append, get_pfx_chars_loop] at h
    rcases hr : resolveOne st v with e | pc
    · rw [hr] at h
      simp at h
    · rw [hr] at h
      simp only [get_pfx_chars_loop, Except.ok.injEq, Prod.mk.injEq] at h
      exact ⟨pc.1, pc.2, by simp [hr], h.1.symm⟩
  | cons u us ih =>
    intro v po acc po' chars h
    simp only [List.cons_append, get_pfx_chars_loop] at h
    rcases hr : resolveOne st u with e | pc
    · rw [hr] at h
      simp at h
    · rw [hr] at h
      exact ih v (some pc.1) (pc.2 :: acc) po' chars h

theorem get_pfx_chars_last (st : IconicFont) (vs0 : List Val) (v : Val)
    (p : String) (chars : List String)
    (h : get_pfx_chars st (vs0 ++ [v]) = .ok (p, chars)) :
    ∃ c, resolveOne st v = .ok (p, c) := by
  unfold get_pfx_chars at h
  split at h
  · rename_i q cs heq
    rw [Except.ok.injEq, Prod.mk.injEq] at h
    obtain ⟨q', c, hres, hq⟩ := loop_last st vs0 v none [] (some q) cs heq
    rw [Option.some.injEq] at hq
    exact ⟨c, by rw [hres, ← hq, h.1]⟩
  · exact absurd h (by simp)
  · exact absurd h (by simp)

theorem color_stage_lookup_pfx (m : OptMap) :
    List.lookup "prefix" (color_stage m) = List.lookup "prefix" m := by
  simp [color_stage, color_stage11, color_stage10, color_stage9,
    color_stage8, color_stage7, color_stage6, color_stage5, color_stage4,
    color_stage3, lookup_setdefault]

theorem paint_body_tail_font (iconic : IconicFont) (c : PCore) (pstr : String)
    (ds : Frac) (rect : Rect) (options : OptMap) (sel : Val × Val)
    (c' : PCore) (rec : DrawRec)
    (h : paint_body_tail iconic c pstr ds rect options sel = .ok (c', rec)) :
    ∃ fam, List.lookup pstr iconic.fontname = some fam ∧
      rec.font = some (fam, ds) := by
  unfold paint_body_tail at h
  rcases hf : List.lookup pstr iconic.fontname with _ | fam
  · rw [hf] at h
    exact absurd h (by simp)
  · rw [hf] at h
    refine ⟨fam, rfl, ?_⟩
    rcases ho : List.lookup "offset" options with _ | ov
    · rw [ho] at h
      simp only [Except.ok.injEq, Prod.mk.injEq] at h
      rw [← h.2]
    · rw [ho] at h
      cases ov <;> simp only [Except.ok.injEq, Prod.mk.injEq] at h <;>
        first
        | rw [← h.2]
        | exact absurd h (by simp)

theorem paint_body_font (iconic : IconicFont) (anim : AnimHook) (c0 : PCore)
    (rect : Rect) (mode : QMode) (qs : QState) (options : OptMap)
    (c : PCore) (rec : DrawRec)
    (h : paint_body iconic anim c0 rect mode qs options = .ok (c, rec)) :
    rec.font.map Prod.fst = body_font_family iconic options := by
  unfold paint_body at h
  rcases hx1 : pyidx options "color" with e | v1 <;> rw [hx1] at h
  · exact absurd h (by simp)
  rcases hx2 : pyidx options "char" with e | v2 <;> rw [hx2] at h
  · exact absurd h (by simp)
  rcases hx3 : pyidx2 options "color_on" "on" with e | pOn <;> rw [hx3] at h
  · exact absurd h (by simp)
  rcases hx4 : pyidx2 options "color_on_disabled" "on_disabled" with e | pOnDis <;>
    rw [hx4] at h
  · exact absurd h (by simp)
  rcases hx5 : pyidx2 options "color_on_active" "on_active" with e | pOnAct <;>
    rw [hx5] at h
  · exact absurd h (by simp)
  rcases hx6 : pyidx2 options "color_on_selected" "on_selected" with e | pOnSel <;>
    rw [hx6] at h
  · exact absurd h (by simp)
  rcases hx7 : pyidx2 options "color_off" "off" with e | pOff <;> rw [hx7] at h
  · exact absurd h (by simp)
  rcases hx8 : pyidx2 options "color_off_disabled" "off_disabled" with e | pOffDis <;>
    rw [hx8] at h
  · exact absurd h (by simp)
  rcases hx9 : pyidx2 options "color_off_active" "off_active" with e | pOffAct <;>
    rw [hx9] at h
  · exact absurd h (by simp)
  rcases hx10 : pyidx2 options "color_off_selected" "off_selected" with e | pOffSel <;>
    rw [hx10] at h
  · exact absurd h (by simp)
  rcases hx11 : pyidx options "scale_factor" with e | sfv <;> rw [hx11] at h
  · exact absurd h (by simp)
  simp only [] at h
  cases sfv
  case str => exact absurd h (by simp)
  case color => exact absurd h (by simp)
  case pair => exact absurd h (by simp)
  case anim => exact absurd h (by simp)
  case pynone => exact absurd h (by simp)
  case num sf => ?_
  simp only [] at h
  rcases hx12 : pyidx options "prefix" with e | pv <;> rw [hx12] at h
  · exact absurd h (by simp)
  cases pv
  case color => exact absurd h (by simp)
  case num => exact absurd h (by simp)
  case pair => exact absurd h (by simp)
  case anim => exact absurd h (by simp)
  case pynone => exact absurd h (by simp)
  case str pstr => ?_
  have hpfx : List.lookup "prefix" options = some (.str pstr) := by
    unfold pyidx at hx12
    rcases hl : List.lookup "prefix" options with _ | w
    · rw [hl] at hx12
      simp at hx12
    · rw [hl] at hx12
      simp only [Except.ok.injEq] at hx12
      rw [hx12]
  simp only [] at h
  cases hx13 : pyget options "animation" <;> rw [hx13] at h
  case str => exact absurd h (by simp)
  case color => exact absurd h (by simp)
  case num => exact absurd h (by simp)
  case pair => exact absurd h (by simp)
  case pynone =>
    simp only [] at h
    obtain ⟨fam, hfam, hfont⟩ := paint_body_tail_font _ _ _ _ _ _ _ _ _ h
    simp [hfont, body_font_family, hpfx, hfam]
  case anim i =>
    simp only [] at h
    split at h
    · obtain ⟨fam, hfam, hfont⟩ := paint_body_tail_font _ _ _ _ _ _ _ _ _ h
      simp [hfont, body_font_family, hpfx, hfam]
    · exact absurd h (by simp)

/-- C8. The prefix stored in the resolved Render Options — and with it
the font family `_paint_icon` draws with for every mode and state — is
the prefix parsed from the last of the 12 name slots in `icon_kw` order,
i.e. the resolved `off_disabled` slot: part one says the stored
`"prefix"` entry comes from splitting the resolved `off_disabled` name,
part two says the family a successful paint uses is a function of the
options dict alone (`body_font_family`), taking neither mode nor
state. -/
theorem stored_pfx_from_last_slot :
    (∀ (st : IconicFont) (sp g : OptMap) (name : String) (o : OptMap)
       (s p n : String),
      parse_options st sp g name = .ok o →
      (resolveNames (mergedOptions sp g) name).getLast? = some (.str s) →
      pySplitDot s = [p, n] →
      List.lookup "prefix" o = some (.str p)) ∧
    (∀ (iconic : IconicFont) (anim : AnimHook) (pt : Painter) (rect : Rect)
       (mode : QMode) (qs : QState) (options : OptMap) (pr : Painter)
       (rec : DrawRec),
      paint_icon iconic anim pt rect mode qs options = (pr, some rec, none) →
      rec.font.map Prod.fst = body_font_family iconic options) := by
  constructor
  · intro st sp g name o s p n h hlast hsplit
    unfold parse_options at h
    simp only [] at h
    split at h
    · exact absurd h (by simp)
    · rename_i pfx chars heq
      rw [Except.ok.injEq] at h
      subst h
      have hform : resolveNames (mergedOptions sp g) name =
          (resolveNames (mergedOptions sp g) name).dropLast ++
          [spec_off_disabled (mergedOptions sp g) name] := rfl
      rw [hform] at heq hlast
      rw [List.getLast?_concat] at hlast
      rw [Option.some.injEq] at hlast
      obtain ⟨c, hres⟩ := get_pfx_chars_last st _ _ _ _ heq
      rw [hlast] at hres
      unfold resolveOne at hres
      simp only [] at hres
      cases hdot : containsDot s
      · simp [hdot] at hres
      · simp only [hdot, if_true] at hres
        rw [hsplit] at hres
        simp only [] at hres
        rcases hcm : List.lookup p st.charmap with _ | cmap
        · rw [hcm] at hres
          simp at hres
        · rw [hcm] at hres
          simp only [] at hres
          rcases hn : List.lookup n cmap with _ | ch
          · rw [hn] at hres
            simp at hres
          · rw [hn] at hres
            simp only [Except.ok.injEq, Prod.mk.injEq] at hres
            rw [color_stage_lookup_pfx]
            simp [List.lookup, hres.1]
  · intro iconic anim pt rect mode qs options pr rec h
    unfold paint_icon at h
    simp only [] at h
    split at h
    · rename_i pc heq
      rw [Prod.mk.injEq, Prod.mk.injEq] at h
      obtain ⟨h1, h2, h3⟩ := h
      rw [Option.some.injEq] at h2
      subst h2
      exact paint_body_font _ _ _ _ _ _ _ _ _ heq
    · rename_i pc heq
      simp at h

/-- Witness for C8: a `disabled` override carrying another collection's
prefix makes the stored prefix (and hence the painting font) that of the
`off_disabled` slot; and a successful concrete paint uses exactly the
family `body_font_family` names. -/
theorem stored_pfx_from_last_slot_witness :
    List.lookup "prefix"
        ((parse_options ⟨[("fa", "FamilyA"), ("fb", "FamilyB")],
            [("fa", [("flag", "F")]), ("fb", [("x", "X")])]⟩
          [("disabled", Val.str "fb.x")] [] "fa.flag").toOption.getD []) =
      some (.str "fb") ∧
    (⟨⟨⟨0, 1⟩, ⟨0, 1⟩, ⟨16, 1⟩, ⟨16, 1⟩⟩, Val.str "F", Val.color 50 50 50,
        some ("FamilyA", ⟨112, 8⟩), Val.num ⟨1, 1⟩⟩ : DrawRec).font.map Prod.fst =
      body_font_family sampleFont sampleParsed :=
  ⟨stored_pfx_from_last_slot.1 ⟨[("fa", "FamilyA"), ("fb", "FamilyB")],
      [("fa", [("flag", "F")]), ("fb", [("x", "X")])]⟩
      [("disabled", Val.str "fb.x")] [] "fa.flag" _ "fb.x" "fb" "x"
      (by decide) (by decide) (by decide),
   stored_pfx_from_last_slot.2 sampleFont (fun _ c _ => .ok c)
      ⟨⟨.pynone, none, .pynone⟩, []⟩ ⟨⟨0, 1⟩, ⟨0, 1⟩, ⟨16, 1⟩, ⟨16, 1⟩⟩
      .Normal .On sampleParsed ⟨⟨.pynone, none, .pynone⟩, []⟩ _ (by decide)⟩

/-- C9. When `load_font` fails the bundled-asset integrity check, the
error is raised only after the font family and charmap for that prefix
were stored: the failing prefix remains registered, and every other
prefix is untouched. -/
theorem integrity_failure_nonatomic (st : IconicFont) (pfx fname : String)
    (fam : String) (fams : List String) (cm : List (String × String))
    (fhash expected : String)
    (htab : List.lookup fname md5_hashes = some expected)
    (hne : fhash ≠ expected) :
    (load_font st true pfx fname (fam :: fams) cm fhash).2 = some .corrupt ∧
    List.lookup pfx
        (load_font st true pfx fname (fam :: fams) cm fhash).1.fontname =
      some fam ∧
    List.lookup pfx
        (load_font st true pfx fname (fam :: fams) cm fhash).1.charmap =
      some cm ∧
    (∀ q, q ≠ pfx →
      List.lookup q
          (load_font st true pfx fname (fam :: fams) cm fhash).1.fontname =
        List.lookup q st.fontname ∧
      List.lookup q
          (load_font st true pfx fname (fam :: fams) cm fhash).1.charmap =
        List.lookup q st.charmap) := by
  have hload : load_font st true pfx fname (fam :: fams) cm fhash =
      (⟨(pfx, fam) :: st.fontname, (pfx, cm) :: st.charmap⟩, some .corrupt) := by
    simp only [load_font, SYSTEM_FONTS, htab]
    simp [hne]
  refine ⟨?_, ?_, ?_, ?_⟩
  · rw [hload]
  · rw [hload]
    simp [List.lookup]
  · rw [hload]
    simp [List.lookup]
  · intro q hq
    have hb : (q == pfx) = false := beq_eq_false_iff_ne.mpr hq
    rw [hload]
    constructor <;> simp [List.lookup, hb]

/-- Witness for C9: a corrupted `elusiveicons-webfont.ttf` load reports
the corruption yet leaves the new prefix registered and an older prefix
untouched. -/
theorem integrity_failure_nonatomic_witness :
    (load_font ⟨[("old", "OldFam")], [("old", [("o", "O")])]⟩ true "el"
        "elusiveicons-webfont.ttf" ["Elusive"] [("ok", "K")] "deadbeef").2 =
      some .corrupt ∧
    List.lookup "el"
        (load_font ⟨[("old", "OldFam")], [("old", [("o", "O")])]⟩ true "el"
          "elusiveicons-webfont.ttf" ["Elusive"] [("ok", "K")]
          "deadbeef").1.fontname = some "Elusive" ∧
    List.lookup "el"
        (load_font ⟨[("old", "OldFam")], [("old", [("o", "O")])]⟩ true "el"
          "elusiveicons-webfont.ttf" ["Elusive"] [("ok", "K")]
          "deadbeef").1.charmap = some [("ok", "K")] ∧
    List.lookup "old"
        (load_font ⟨[("old", "OldFam")], [("old", [("o", "O")])]⟩ true "el"
          "elusiveicons-webfont.ttf" ["Elusive"] [("ok", "K")]
          "deadbeef").1.fontname =
      List.lookup "old" [("old", "OldFam")] := by
  have H := integrity_failure_nonatomic ⟨[("old", "OldFam")], [("old", [("o", "O")])]⟩
    "el" "elusiveicons-webfont.ttf" "Elusive" [] [("ok", "K")] "deadbeef"
    "207966b04c032d5b873fd595a211582e" (by decide) (by decide)
  exact ⟨H.1, H.2.1, H.2.2.1, (H.2.2.2 "old" (by decide)).1⟩

/-- Counterexample for C4: a second `load_font` under an already
registered prefix raises nothing (no duplicate-prefix error exists in the
module) and replaces the stored family and charmap, so the collection
does not stay unchanged. -/
theorem duplicate_load_not_rejected_cex :
    (load_font ((load_font ⟨[], []⟩ true "fa" "f.ttf" ["Fam1"]
        [("flag", "A")] "h").1) true "fa" "f.ttf" ["Fam2"]
        [("flag", "B")] "h").2 = none ∧
    List.lookup "fa"
        (load_font ((load_font ⟨[], []⟩ true "fa" "f.ttf" ["Fam1"]
          [("flag", "A")] "h").1) true "fa" "f.ttf" ["Fam2"]
          [("flag", "B")] "h").1.charmap = some [("flag", "B")] ∧
    List.lookup "fa"
        (load_font ((load_font ⟨[], []⟩ true "fa" "f.ttf" ["Fam1"]
          [("flag", "A")] "h").1) true "fa" "f.ttf" ["Fam2"]
          [("flag", "B")] "h").1.fontname = some "Fam2" ∧
    List.lookup "fa"
        ((load_font ⟨[], []⟩ true "fa" "f.ttf" ["Fam1"]
          [("flag", "A")] "h").1).charmap = some [("flag", "A")] := by
  decide

/-- C4 as amended: re-registration is last-load-wins. A `load_font` call
under an already registered prefix (with a usable font outside the
integrity table) raises no error and replaces the registration; no
duplicate-prefix rejection exists. -/
theorem duplicate_load_last_wins (st : IconicFont) (pfx fname fam : String)
    (fams : List String) (cm : List (String × String)) (fhash : String)
    (_hreg : (List.lookup pfx st.fontname).isSome = true)
    (htab : List.lookup fname md5_hashes = none) :
    (load_font st true pfx fname (fam :: fams) cm fhash).2 = none ∧
    List.lookup pfx (load_font st true pfx fname (fam :: fams) cm fhash).1.fontname =
      some fam ∧
    List.lookup pfx (load_font st true pfx fname (fam :: fams) cm fhash).1.charmap =
      some cm := by
  have hload : load_font st true pfx fname (fam :: fams) cm fhash =
      (⟨(pfx, fam) :: st.fontname, (pfx, cm) :: st.charmap⟩, none) := by
    simp only [load_font, SYSTEM_FONTS, htab]
    simp
  refine ⟨?_, ?_, ?_⟩ <;> rw [hload] <;> simp [List.lookup]

/-- Witness for C4's amended statement at a concrete re-load. -/
theorem duplicate_load_last_wins_witness :
    (load_font ((load_font ⟨[], []⟩ true "fa" "f.ttf" ["Fam1"]
        [("flag", "A")] "h").1) true "fa" "f.ttf" ["Fam2"]
        [("flag", "B")] "h").2 = none ∧
    List.lookup "fa"
        (load_font ((load_font ⟨[], []⟩ true "fa" "f.ttf" ["Fam1"]
          [("flag", "A")] "h").1) true "fa" "f.ttf" ["Fam2"]
          [("flag", "B")] "h").1.fontname = some "Fam2" :=
  ⟨(duplicate_load_last_wins ((load_font ⟨[], []⟩ true "fa" "f.ttf" ["Fam1"]
      [("flag", "A")] "h").1) "fa" "f.ttf" "Fam2" [] [("flag", "B")] "h"
      (by decide) (by decide)).1,
   (duplicate_load_last_wins ((load_font ⟨[], []⟩ true "fa" "f.ttf" ["Fam1"]
      [("flag", "A")] "h").1) "fa" "f.ttf" "Fam2" [] [("flag", "B")] "h"
      (by decide) (by decide)).2.1⟩

/-- Counterexample for C5: with no application instance, `load_font` is a
silent no-op, so a subsequent `font('fa', 16)` raises the `KeyError` from
the `fontname` subscript — it neither warns nor returns a null result,
contrary to the claim that every `font()` call without an application
degrades to a warning plus an empty value. -/
theorem font_without_app_raises_cex :
    load_font ⟨[], []⟩ false "fa" "f.ttf" ["Fam1"] [("flag", "A")] "h" =
      (⟨[], []⟩, none) ∧
    fontFn (load_font ⟨[], []⟩ false "fa" "f.ttf" ["Fam1"]
        [("flag", "A")] "h").1 "fa" ⟨16, 1⟩ = .error () := by
  decide

/-- C5 as amended: only `icon()` has the no-application guard. Without an
application, `icon()` warns and returns the empty icon (whether the
`options` keyword is omitted or has the right length), while an `options`
list of the wrong length still raises the arity error first; `font()`
performs no application check and raises a lookup error for any prefix
that is not registered — which, when no application ever existed, is
every prefix, because `load_font` without an application silently loads
nothing. -/
theorem no_app_degradation :
    (∀ (st : IconicFont) (names : List String) (g : OptMap),
      icon st false names none g = .ok .emptyWarned) ∧
    (∀ (st : IconicFont) (names : List String) (ol : List OptMap) (g : OptMap),
      ol.length = names.length → icon st false names (some ol) g = .ok .emptyWarned) ∧
    (∀ (st : IconicFont) (names : List String) (ol : List OptMap) (g : OptMap),
      ol.length ≠ names.length →
      icon st false names (some ol) g = .error (.arity names.length)) ∧
    (∀ (st : IconicFont) (pfx : String) (sz : Frac),
      List.lookup pfx st.fontname = none → fontFn st pfx sz = .error ()) ∧
    (∀ (st : IconicFont) (pfx fname : String) (fams : List String)
       (cm : List (String × String)) (fh : String),
      load_font st false pfx fname fams cm fh = (st, none)) := by
  refine ⟨?_, ?_, ?_, ?_, ?_⟩
  · intro st names g
    simp [icon]
  · intro st names ol g hlen
    simp [icon, hlen]
  · intro st names ol g hlen
    simp [icon, hlen]
  · intro st pfx sz hl
    simp [fontFn, hl]
  · intro st pfx fname fams cm fh
    simp [load_font]

/-- Witness for C5's amended statement: the concrete no-application
behaviors of `icon`, `font` and `load_font`. -/
theorem no_app_degradation_witness :
    icon ⟨[], []⟩ false ["fa.flag"] none [] = .ok .emptyWarned ∧
    icon ⟨[], []⟩ false ["fa.flag"] (some [[], []]) [] =
      .error (.arity 1) ∧
    fontFn ⟨[], []⟩ "fa" ⟨16, 1⟩ = .error () ∧
    load_font ⟨[], []⟩ false "fa" "f.ttf" ["Fam1"] [("flag", "A")] "h" =
      (⟨[], []⟩, none) :=
  ⟨no_app_degradation.1 ⟨[], []⟩ ["fa.flag"] [],
   no_app_degradation.2.2.1 ⟨[], []⟩ ["fa.flag"] [[], []] [] (by decide),
   no_app_degradation.2.2.2.1 ⟨[], []⟩ "fa" ⟨16, 1⟩ (by decide),
   no_app_degradation.2.2.2.2 ⟨[], []⟩ "fa" "f.ttf" ["Fam1"]
     [("flag", "A")] "h"⟩

/-- Counterexample for C6: `_paint_icon` has no `try`/`finally`, so when
the font lookup for the entry's prefix raises (prefix absent from
`fontname`), the drawing context is left modified — pen changed, saved
state still pushed — instead of being restored to its entry state. -/
theorem paint_exception_leaves_context_cex :
    ((paint_icon ⟨[], []⟩ (fun _ c _ => .ok c) ⟨⟨.pynone, none, .pynone⟩, []⟩
        ⟨⟨0, 1⟩, ⟨0, 1⟩, ⟨16, 1⟩, ⟨16, 1⟩⟩ .Normal .On sampleParsed).2.2).isSome =
      true ∧
    (paint_icon ⟨[], []⟩ (fun _ c _ => .ok c) ⟨⟨.pynone, none, .pynone⟩, []⟩
        ⟨⟨0, 1⟩, ⟨0, 1⟩, ⟨16, 1⟩, ⟨16, 1⟩⟩ .Normal .On sampleParsed).1 ≠
      ⟨⟨.pynone, none, .pynone⟩, []⟩ := by
  decide

/-- C6 as amended: `_paint_icon` mutates only the passed drawing context
and restores it fully on every normal return (`save` at entry, `restore`
at exit), but an exception raised between the two — a missing option key,
an unknown prefix in the font lookup, or a raising animation hook —
propagates with the context left in its mutated state. -/
theorem paint_restores_on_success (iconic : IconicFont) (anim : AnimHook)
    (pt : Painter) (rect : Rect) (mode : QMode) (qs : QState) (options : OptMap)
    (h : (paint_icon iconic anim pt rect mode qs options).2.2 = none) :
    (paint_icon iconic anim pt rect mode qs options).1 = pt := by
  rcases hb : paint_body iconic anim (painterSave pt).core rect mode qs options
    with ce | cr
  · unfold paint_icon at h
    simp only [] at h
    rw [hb] at h
    simp at h
  · unfold paint_icon
    simp only []
    rw [hb]
    simp [painterSave, painterRestore]

/-- Witness for C6's amended statement: a successful concrete paint
returns the painter exactly as it entered. -/
theorem paint_restores_on_success_witness :
    (paint_icon sampleFont (fun _ c _ => .ok c) ⟨⟨.pynone, none, .pynone⟩, []⟩
        ⟨⟨0, 1⟩, ⟨0, 1⟩, ⟨16, 1⟩, ⟨16, 1⟩⟩ .Normal .On sampleParsed).2.2 = none ∧
    (paint_icon sampleFont (fun _ c _ => .ok c) ⟨⟨.pynone, none, .pynone⟩, []⟩
        ⟨⟨0, 1⟩, ⟨0, 1⟩, ⟨16, 1⟩, ⟨16, 1⟩⟩ .Normal .On sampleParsed).1 =
      ⟨⟨.pynone, none, .pynone⟩, []⟩ :=
  ⟨by decide,
   paint_restores_on_success sampleFont (fun _ c _ => .ok c)
     ⟨⟨.pynone, none, .pynone⟩, []⟩ ⟨⟨0, 1⟩, ⟨0, 1⟩, ⟨16, 1⟩, ⟨16, 1⟩⟩
     .Normal .On sampleParsed (by decide)⟩

/-- Counterexample for C10: the allow list of `set_global_defaults` has
26 distinct keys, not 25 — all 26 are accepted in a single call. -/
theorem global_defaults_allowlist_cex :
    valid_options.length = 26 ∧
    valid_options.Nodup ∧
    valid_options.length ≠ 25 ∧
    (set_global_defaults []
        (valid_options.map (fun k => (k, Val.pynone)))).2 = none := by
  decide

/-- C10 as amended: `set_global_defaults` accepts exactly the 26 keys of
its fixed allow list; for every value, passing `opacity` raises the
invalid-option error because `opacity` is absent from the list even
though it is a render option with a process-wide default; and when a call
mixes valid and invalid keys, the valid keys iterated before the first
invalid one are applied to the defaults before the error is raised. -/
theorem global_defaults_allowlist :
    valid_options.length = 26 ∧
    "opacity" ∉ valid_options ∧
    (∀ (v : Val) (d : OptMap),
      set_global_defaults d [("opacity", v)] = (d, some "opacity")) ∧
    List.lookup "opacity" default_options = some (.num ⟨1, 1⟩) ∧
    (∀ (d : OptMap) (pre : List (String × Val)) (k : String) (v : Val)
       (rest : List (String × Val)),
      (∀ kv ∈ pre, kv.1 ∈ valid_options) → k ∉ valid_options →
      set_global_defaults d (pre ++ (k, v) :: rest) =
        (applyDefaults d pre, some k)) ∧
    (∀ (d : OptMap) (k : String) (v : Val), k ∈ valid_options →
      set_global_defaults d [(k, v)] = ((k, v) :: d, none)) := by
  refine ⟨by decide, by decide, ?_, by decide, ?_, ?_⟩
  · intro v d
    simp [set_global_defaults, valid_options]
  · intro d pre
    induction pre generalizing d with
    | nil =>
      intro k v rest _ hk
      simp [set_global_defaults, hk, applyDefaults]
    | cons kv tl ih =>
      intro k v rest hall hk
      rcases kv with ⟨k0, v0⟩
      have h0 : k0 ∈ valid_options := hall (k0, v0) (List.mem_cons_self _ _)
      have hall' : ∀ kv ∈ tl, kv.1 ∈ valid_options :=
        fun kv hkv => hall kv (List.mem_cons_of_mem _ hkv)
      simp only [List.cons_append, set_global_defaults, h0, if_true,
        applyDefaults, List.foldl_cons]
      exact ih ((k0, v0) :: d) k v rest hall' hk
  · intro d k v hk
    simp [set_global_defaults, hk]

/-- Witness for C10's amended statement: `opacity` is rejected with the
defaults untouched, and a mixed call applies `color` before failing on
`bogus`. -/
theorem global_defaults_allowlist_witness :
    set_global_defaults [] [("opacity", Val.num ⟨1, 1⟩)] = ([], some "opacity") ∧
    set_global_defaults [] [("color", Val.color 1 2 3), ("bogus", Val.pynone),
        ("active", Val.str "x")] =
      (applyDefaults [] [("color", Val.color 1 2 3)], some "bogus") ∧
    set_global_defaults [] [("color", Val.color 1 2 3)] =
      ([("color", Val.color 1 2 3)], none) :=
  ⟨global_defaults_allowlist.2.2.1 (Val.num ⟨1, 1⟩) [],
   global_defaults_allowlist.2.2.2.2.1 [] [("color", Val.color 1 2 3)] "bogus"
     Val.pynone [("active", Val.str "x")] (by decide) (by decide),
   global_defaults_allowlist.2.2.2.2.2 [] "color" (Val.color 1 2 3) (by decide)⟩
